import Mathlib

/-!
Verification development for the product-inventory management backend
(`src/usecases/product.usecase.js`, `src/usecases/inventory-log.usecase.js`,
`src/repositories/product.repository.js`,
`src/repositories/inventory-log.repository.js`, schema in `src/index.js`).

The JavaScript code is shallowly embedded: request values become `JSVal`
(`undefined`, `null`, strings, numbers), the SQLite store becomes an explicit
`DB` state threaded through every operation, and each fallible call returns
`Except Err`.  JavaScript numbers are modelled as `Int`: every numeric value
the claims touch (`stock`, ids, page/limit) is integral, and `Number(...)`
coercion is modelled on integer literals, with `none` standing for `NaN`.
-/

/-- ASCII lower-casing of a string, written over the character list so that
it evaluates inside the kernel (SQLite `NOCASE` folds ASCII only, as does
`Char.toLower`). -/
def strLower (s : String) : String := ⟨s.data.map Char.toLower⟩

/-- ASCII upper-casing of a string (`String.prototype.toUpperCase` on the
ASCII values the order parameter takes). -/
def strUpper (s : String) : String := ⟨s.data.map Char.toUpper⟩

/-- The characters of `s` with leading and trailing whitespace removed
(`String.prototype.trim`, and the whitespace skipping of SQLite's numeric
text conversion). -/
def trimData (s : String) : List Char :=
  ((s.data.dropWhile Char.isWhitespace).reverse.dropWhile Char.isWhitespace).reverse

/-- Digit-by-digit parse of a decimal natural number; `none` on a non-digit
or on empty input. -/
def parseNatAux : List Char → Nat → Option Nat
  | [], acc => some acc
  | c :: cs, acc =>
    if c.isDigit then parseNatAux cs (acc * 10 + (c.toNat - 48)) else none

/-- Parse of a signed decimal integer literal (optional `+`/`-` sign).  This
is the integer fragment shared by JavaScript `Number(...)` on strings and by
SQLite's INTEGER-affinity text conversion. -/
def parseIntLit : List Char → Option Int
  | [] => none
  | '-' :: cs => if cs = [] then none else (parseNatAux cs 0).map (fun n => -(n : Int))
  | '+' :: cs => if cs = [] then none else (parseNatAux cs 0).map (fun n => (n : Int))
  | cs => (parseNatAux cs 0).map (fun n => (n : Int))

/-- SQLite INTEGER affinity applied to a text value: an integer literal
(surrounding whitespace allowed) converts, anything else does not. -/
def affinityInt (s : String) : Option Int :=
  match trimData s with
  | [] => none
  | cs => parseIntLit cs

/-- A JavaScript value as it appears in request bodies, CSV rows and query
strings: `undefined`, `null`, a string, or an (integer) number. -/
inductive JSVal where
  | undefined
  | null
  | str (s : String)
  | num (n : Int)
deriving DecidableEq, Repr

/-- JavaScript truthiness: `undefined`, `null`, `0` and `""` are falsy. -/
def jsTruthy : JSVal → Bool
  | .undefined => false
  | .null => false
  | .str s => s != ""
  | .num n => n != 0

/-- `a || b` in JavaScript: `b` when `a` is falsy. -/
def jsOr (a b : JSVal) : JSVal := if jsTruthy a then a else b

/-- `Number(v)`: `undefined` gives `NaN` (`none`), `null` gives `0`, a blank
string gives `0`, a numeric string parses, anything else is `NaN`.
Numeric literals are modelled as integers. -/
def jsNumber : JSVal → Option Int
  | .undefined => none
  | .null => some 0
  | .num n => some n
  | .str s =>
    match trimData s with
    | [] => some 0
    | cs => parseIntLit cs

/-- String interpolation of a value, as in a template literal. -/
def jsDisplay : JSVal → String
  | .undefined => "undefined"
  | .null => "null"
  | .str s => s
  | .num n => toString n

/-- Binding a JS value into a TEXT-affinity SQLite column: `undefined` and
`null` bind as SQL `NULL` (`none`), numbers are converted to their text
representation. -/
def textBind : JSVal → Option String
  | .undefined => none
  | .null => none
  | .str s => some s
  | .num n => some (toString n)

/-- An incoming product record (a parsed CSV row or a `PUT` request body):
one JS value per column-shaped property.  A property that is absent from
the JavaScript object reads as `undefined`. -/
structure RowData where
  name : JSVal
  unit : JSVal
  category : JSVal
  brand : JSVal
  status : JSVal
  stock : JSVal
  image : JSVal
deriving DecidableEq, Repr

/-- A non-NULL value stored in the `stock` column (`INTEGER NOT NULL`):
either an integer, or a non-numeric text kept verbatim because INTEGER
affinity could not convert it. -/
inductive StockVal where
  | int (n : Int)
  | text (s : String)
deriving DecidableEq, Repr

/-- SQLite `COLLATE NOCASE` equality (ASCII case folding). -/
def nocaseEq (a b : String) : Bool := strLower a == strLower b

/-- A row of the `products` table
(`id, name, unit, category, brand, stock, status, image, createdAt, updatedAt`;
`name` is `TEXT NOT NULL UNIQUE COLLATE NOCASE`, `stock` is
`INTEGER NOT NULL CHECK(stock >= 0)`, the remaining text columns are
nullable).  Timestamps are modelled by a logical clock. -/
structure Product where
  id : Nat
  name : String
  unit : Option String
  category : Option String
  brand : Option String
  stock : StockVal
  status : Option String
  image : Option String
  createdAt : Nat
  updatedAt : Nat
deriving DecidableEq, Repr

/-- A row of the `inventory_logs` table (`productId INTEGER NOT NULL`,
`oldStock`/`newStock INTEGER NOT NULL`, `changedBy TEXT`,
`timestamp DATETIME DEFAULT CURRENT_TIMESTAMP`). -/
structure LogRow where
  id : Nat
  productId : Nat
  oldStock : StockVal
  newStock : Int
  changedBy : Option String
  timestamp : Nat
deriving DecidableEq, Repr

/-- The SQLite store: both tables, the AUTOINCREMENT counters, and a logical
clock standing for `CURRENT_TIMESTAMP` (bumped on every write so stored
timestamps record write order). -/
structure DB where
  products : List Product
  logs : List LogRow
  nextProductId : Nat
  nextLogId : Nat
  now : Nat
deriving DecidableEq, Repr

/-- An error surfaced to the caller: an operational `AppError` carrying a
message and HTTP status code, or a raw SQLite error (mapped to 500 by the
global handler). -/
inductive Err where
  | app (message : String) (statusCode : Nat)
  | sql (message : String)
deriving DecidableEq, Repr

deriving instance DecidableEq for Except

/-- Binding a JS value into the `stock` column: `undefined`/`null` violate
`NOT NULL`; numbers are stored subject to `CHECK(stock >= 0)`; text is
converted by INTEGER affinity when it is an integer literal, otherwise kept
as text (any text passes the CHECK, since in SQLite ordering TEXT sorts
above all numbers). -/
def stockBind : JSVal → Except Err StockVal
  | .undefined => .error (.sql "NOT NULL constraint failed: products.stock")
  | .null => .error (.sql "NOT NULL constraint failed: products.stock")
  | .num n =>
    if n < 0 then .error (.sql "CHECK constraint failed: products") else .ok (.int n)
  | .str s =>
    match affinityInt s with
    | some n =>
      if n < 0 then .error (.sql "CHECK constraint failed: products") else .ok (.int n)
    | none => .ok (.text s)

/-- Re-inserting a stock value read from the store into another INTEGER
column (`inventory_logs.oldStock`): INTEGER affinity converts integer-literal
text, other text is kept. -/
def logStockAffinity : StockVal → StockVal
  | .int n => .int n
  | .text s =>
    match affinityInt s with
    | some n => .int n
    | none => .text s

/-- JavaScript strict inequality `oldStock !== newStock` between the value
read from the `stock` column and the number `Number(updateData.stock)`: a
text value is never strictly equal to a number. -/
def stockNeNum : StockVal → Int → Bool
  | .int m, n => m != n
  | .text _, _ => true

/-- Insert `x` into a list ordered by the boolean comparator `le`
(the helper for the `ORDER BY` model below). -/
def sqlInsert (le : α → α → Bool) (x : α) : List α → List α
  | [] => [x]
  | y :: ys => if le x y then x :: y :: ys else y :: sqlInsert le x ys

/-- Deterministic model of SQL `ORDER BY`: an insertion sort by the boolean
comparator `le`.  SQLite leaves the relative order of ties unspecified; the
claims only rely on the result being a permutation sorted by `le`. -/
def sqlSort (le : α → α → Bool) : List α → List α
  | [] => []
  | x :: xs => sqlInsert le x (sqlSort le xs)

/-- String comparison in SQLite's BINARY collation: lexicographic by code
point (memcmp over UTF-8). -/
def charsLe : List Char → List Char → Bool
  | [], _ => true
  | _ :: _, [] => false
  | a :: as, b :: bs =>
    if a.toNat < b.toNat then true
    else if b.toNat < a.toNat then false
    else charsLe as bs

/-- `≤` for values of the `stock` column under SQLite's cross-type ordering:
every number sorts below every text value, text compares with BINARY. -/
def stockLe : StockVal → StockVal → Bool
  | .int m, .int n => m ≤ n
  | .int _, .text _ => true
  | .text _, .int _ => false
  | .text s, .text t => charsLe s.data t.data

/-- The allow-list of sortable columns in `ProductRepository.findAll`. -/
def allowedSortFields : List String := ["name", "stock", "updatedAt", "createdAt"]

/-- Ascending comparator for one allowed sort column.  `ORDER BY name` uses
the column's `COLLATE NOCASE`, so names compare case-insensitively.  (The
final branch is only reached for `"updatedAt"`, the one remaining value of
the allow-list.) -/
def sortKeyLe (s : String) (a b : Product) : Bool :=
  if s = "name" then charsLe (strLower a.name).data (strLower b.name).data
  else if s = "stock" then stockLe a.stock b.stock
  else if s = "createdAt" then decide (a.createdAt ≤ b.createdAt)
  else decide (a.updatedAt ≤ b.updatedAt)

/-- `sortOrder?.toUpperCase() === 'DESC'` for a query-string value (query
parameters are strings or absent; optional chaining turns an absent value
into `undefined`, which is not `'DESC'`). -/
def isDescOrder : Option String → Bool
  | some s => strUpper s == "DESC"
  | none => false

/-- Arguments of `ProductRepository.findAll` as passed by the use case:
`limit`/`offset` are numbers or `undefined`, the rest come from the query
string. -/
structure FindAllParams where
  limit : Option Int
  offset : Option Int
  searchName : Option String
  sortField : Option String
  sortOrder : Option String
deriving DecidableEq, Repr

/-- The `WHERE name LIKE '%…%'` filter: applied only when `searchName` is
truthy, and case-insensitive (SQLite `LIKE` folds ASCII case). -/
def matchesNameFilter (searchName : Option String) (p : Product) : Bool :=
  match searchName with
  | some s => if s == "" then true else (strLower s).data.IsInfix (strLower p.name).data
  | none => true

/-- The `ORDER BY` comparator chosen by `findAll`: a field from the
allow-list (guarded by truthiness of `sortField`) with `ASC` unless the
order is `DESC` case-insensitively; otherwise the default
`updatedAt DESC`. -/
def findAllOrderLe (sortField sortOrder : Option String) : Product → Product → Bool :=
  match sortField with
  | some s =>
    if s != "" && allowedSortFields.contains s then
      fun a b => if isDescOrder sortOrder then sortKeyLe s b a else sortKeyLe s a b
    else fun a b => b.updatedAt ≤ a.updatedAt
  | none => fun a b => b.updatedAt ≤ a.updatedAt

namespace ProductRepository

/-- `SELECT * FROM products` with the optional name filter, the sort rule,
and `LIMIT ? OFFSET ?` applied only when both are given.  SQLite treats a
negative `OFFSET` as `0` and a negative `LIMIT` as unbounded. -/
def findAll (db : DB) (q : FindAllParams) : List Product :=
  let rows := sqlSort (findAllOrderLe q.sortField q.sortOrder)
    (db.products.filter (matchesNameFilter q.searchName))
  match q.limit, q.offset with
  | some l, some o =>
    let afterOffset := rows.drop (max o 0).toNat
    if l < 0 then afterOffset else afterOffset.take l.toNat
  | _, _ => rows

/-- `SELECT * FROM products WHERE id = ?`. -/
def findById (db : DB) (id : Nat) : Option Product :=
  db.products.find? (fun p => p.id == id)

/-- The comparison `name = ? COLLATE NOCASE` against a JS parameter: a
string compares case-insensitively, a number is converted to text by the
column's TEXT affinity, `null`/`undefined` bind as SQL `NULL` and match
nothing. -/
def nameParamMatches (v : JSVal) (name : String) : Bool :=
  match textBind v with
  | some s => nocaseEq name s
  | none => false

/-- `SELECT * FROM products WHERE name = ? COLLATE NOCASE` (`db.get`
returns the first matching row). -/
def findByName (db : DB) (v : JSVal) : Option Product :=
  db.products.find? (fun p => nameParamMatches v p.name)

/-- `INSERT INTO products (name, unit, category, brand, stock, status,
image)` with `stock || 0` and `image || null`, then `findById(lastID)`.
Fails on the `name` NOT NULL / UNIQUE constraints or the `stock`
constraints; on failure the store is unchanged. -/
def create (db : DB) (d : RowData) : Except Err Product × DB :=
  match textBind d.name with
  | none => (.error (.sql "NOT NULL constraint failed: products.name"), db)
  | some nm =>
    if db.products.any (fun p => nocaseEq p.name nm) then
      (.error (.sql "UNIQUE constraint failed: products.name"), db)
    else
      match stockBind (jsOr d.stock (.num 0)) with
      | .error e => (.error e, db)
      | .ok sv =>
        let p : Product :=
          { id := db.nextProductId, name := nm, unit := textBind d.unit,
            category := textBind d.category, brand := textBind d.brand,
            stock := sv, status := textBind d.status,
            image := textBind (jsOr d.image .null),
            createdAt := db.now, updatedAt := db.now }
        (.ok p, { db with products := db.products ++ [p],
                          nextProductId := db.nextProductId + 1,
                          now := db.now + 1 })

/-- `UPDATE products SET … , updatedAt = CURRENT_TIMESTAMP WHERE id = ?`
followed by `findById(id)`.  All fields are overwritten (`image || null`;
`stock` is bound RAW, not coerced by `Number`).  If no row matches, the
update affects nothing and `findById` yields `none`.  A constraint
violation fails the statement and leaves the store unchanged. -/
def update (db : DB) (id : Nat) (d : RowData) : Except Err (Option Product) × DB :=
  match db.products.find? (fun p => p.id == id) with
  | none => (.ok none, db)
  | some _ =>
    match textBind d.name with
    | none => (.error (.sql "NOT NULL constraint failed: products.name"), db)
    | some nm =>
      if db.products.any (fun p => p.id != id && nocaseEq p.name nm) then
        (.error (.sql "UNIQUE constraint failed: products.name"), db)
      else
        match stockBind d.stock with
        | .error e => (.error e, db)
        | .ok sv =>
          let newProducts := db.products.map (fun p =>
            if p.id == id then
              { p with name := nm, unit := textBind d.unit,
                       category := textBind d.category, brand := textBind d.brand,
                       stock := sv, status := textBind d.status,
                       image := textBind (jsOr d.image .null),
                       updatedAt := db.now }
            else p)
          let db' : DB := { db with products := newProducts, now := db.now + 1 }
          (.ok (db'.products.find? (fun p => p.id == id)), db')

/-- `SELECT COUNT(*) FROM products` with the same optional name filter as
`findAll`. -/
def getProductCount (db : DB) (searchName : Option String) : Nat :=
  (db.products.filter (matchesNameFilter searchName)).length

end ProductRepository

namespace InventoryLogRepository

/-- `INSERT INTO inventory_logs (productId, oldStock, newStock, changedBy)`;
`changedBy` defaults to `'system'` when the property is `undefined`.
`oldStock` is re-bound through the INTEGER affinity of its column. -/
def createLog (db : DB) (productId : Nat) (oldStock : StockVal) (newStock : Int)
    (changedBy : JSVal) : DB :=
  let cb : Option String :=
    match changedBy with
    | .undefined => some "system"
    | v => textBind v
  let row : LogRow :=
    { id := db.nextLogId, productId := productId,
      oldStock := logStockAffinity oldStock, newStock := newStock,
      changedBy := cb, timestamp := db.now }
  { db with logs := db.logs ++ [row], nextLogId := db.nextLogId + 1, now := db.now + 1 }

/-- `SELECT * FROM inventory_logs WHERE productId = ? ORDER BY timestamp
DESC`. -/
def findLogsByProductId (db : DB) (productId : Nat) : List LogRow :=
  sqlSort (fun a b => b.timestamp ≤ a.timestamp)
    (db.logs.filter (fun r => r.productId == productId))

end InventoryLogRepository

namespace ProductUseCase

/-- `_validateProductData`: each of `name`, `unit`, `category`, `brand`,
`status` must be present, non-`null`, and non-blank after `String(...)`
conversion and trimming (a number never stringifies to blanks). -/
def fieldMissing : JSVal → Bool
  | .undefined => true
  | .null => true
  | .str s => trimData s == []
  | .num _ => false

/-- The validation error message for an invalid `stock`. -/
def stockErrMsg : String := "Stock must be a non-negative number."

/-- `_validateProductData(data)`: required fields checked in source order,
then `Number(data.stock)` must be a number `≥ 0`. -/
def validateProductData (d : RowData) : Except Err Unit :=
  if fieldMissing d.name then .error (.app "Product field 'name' is required." 400)
  else if fieldMissing d.unit then .error (.app "Product field 'unit' is required." 400)
  else if fieldMissing d.category then .error (.app "Product field 'category' is required." 400)
  else if fieldMissing d.brand then .error (.app "Product field 'brand' is required." 400)
  else if fieldMissing d.status then .error (.app "Product field 'status' is required." 400)
  else
    match jsNumber d.stock with
    | none => .error (.app stockErrMsg 400)
    | some n => if n < 0 then .error (.app stockErrMsg 400) else .ok ()

/-- One entry of the `duplicates` list returned by `importProducts`:
`{ name: productData.name, existingId: existingProduct.id }`. -/
structure DupEntry where
  name : JSVal
  existingId : Nat
deriving DecidableEq, Repr

/-- The stats object accumulated by `importProducts`. -/
structure ImportStats where
  added : Nat
  skipped : Nat
  duplicates : List DupEntry
deriving DecidableEq, Repr

/-- One iteration of the `importProducts` loop: validate; on success look
the name up and either record a duplicate or create the product; any error
thrown inside the loop body (validation or the insert) is caught and
counted as a skip. -/
def importStep (acc : ImportStats × DB) (d : RowData) : ImportStats × DB :=
  let stats := acc.1
  let db := acc.2
  match validateProductData d with
  | .error _ => ({ stats with skipped := stats.skipped + 1 }, db)
  | .ok _ =>
    match ProductRepository.findByName db d.name with
    | some existing =>
      ({ stats with skipped := stats.skipped + 1,
                    duplicates := stats.duplicates ++ [⟨d.name, existing.id⟩] }, db)
    | none =>
      match ProductRepository.create db d with
      | (.error _, db') => ({ stats with skipped := stats.skipped + 1 }, db')
      | (.ok _, db') => ({ stats with added := stats.added + 1 }, db')

/-- `importProducts(csvData)`: fold the per-row step over the rows,
starting from `{added: 0, skipped: 0, duplicates: []}`. -/
def importProducts (db : DB) (csvData : List RowData) : ImportStats × DB :=
  csvData.foldl importStep (⟨0, 0, []⟩, db)

/-- `updateProduct(id, updateData, changedBy)`: validate, load the product,
check the case-insensitive name conflict, write an inventory log when
`existing.stock !== Number(updateData.stock)`, then persist the update.
The route id is modelled as the integer it converts to under the id
column's INTEGER affinity.  The `none` branch for `jsNumber` is unreachable
(validation has already accepted the stock) and returns the validation
error it would correspond to. -/
def updateProduct (db : DB) (id : Nat) (updateData : RowData) (changedBy : JSVal) :
    Except Err (Option Product) × DB :=
  match validateProductData updateData with
  | .error e => (.error e, db)
  | .ok _ =>
    match ProductRepository.findById db id with
    | none => (.error (.app "Product not found." 404), db)
    | some existingProduct =>
      let conflict :=
        match ProductRepository.findByName db updateData.name with
        | some productByName => productByName.id != existingProduct.id
        | none => false
      if conflict then
        (.error (.app ("Product name '" ++ jsDisplay updateData.name ++ "' already exists.") 400), db)
      else
        match jsNumber updateData.stock with
        | none => (.error (.app stockErrMsg 400), db)
        | some newStock =>
          let db1 :=
            if stockNeNum existingProduct.stock newStock then
              InventoryLogRepository.createLog db id existingProduct.stock newStock changedBy
            else db
          ProductRepository.update db1 id updateData

/-- The `req.query` object for `GET /products`: every parameter is a string
or absent. -/
structure QueryParams where
  page : Option String
  limit : Option String
  name : Option String
  sort : Option String
  order : Option String
deriving DecidableEq, Repr

/-- `Number(…)` of a query parameter after the destructuring default for an
absent (`undefined`) value; `none` is `NaN`. -/
def resolveNum (v : Option String) (dflt : Int) : Option Int :=
  match v with
  | none => some dflt
  | some s => jsNumber (.str s)

/-- `Math.ceil(a / b)` for a nonzero divisor, over integers:
`⌈a/b⌉ = -⌊(-a)/b⌋` (Lean's `Int` division rounds down for a positive
divisor). -/
def mathCeilDiv (a b : Int) : Int :=
  if 0 < b then -((-a) / b) else -(a / (-b))

/-- The pagination metadata of `getProducts`. -/
structure Pagination where
  totalItems : Int
  totalPages : Int
  currentPage : Int
  limit : Int
deriving DecidableEq, Repr

/-- The value returned by `getProducts`. -/
structure PagedResult where
  data : List Product
  pagination : Pagination
deriving DecidableEq, Repr

/-- `getProducts(params)`: defaults `page = 1`, `limit = 10`, computes
`offset = (page - 1) * limit`, queries the page and the filtered count, and
returns `totalPages = Math.ceil(totalCount / limit)`.  The embedding covers
numeric page/limit with a positive limit; `NaN` arithmetic and the
`Infinity` of a zero/negative limit fall outside the integer model and
yield `none`. -/
def getProducts (db : DB) (params : QueryParams) : Option PagedResult :=
  match resolveNum params.page 1, resolveNum params.limit 10 with
  | some page, some limit =>
    if limit ≤ 0 then none
    else
      let offset := (page - 1) * limit
      let products := ProductRepository.findAll db
        ⟨some limit, some offset, params.name, params.sort, params.order⟩
      let totalCount : Int := ProductRepository.getProductCount db params.name
      let totalPages := mathCeilDiv totalCount limit
      some ⟨products, ⟨totalCount, totalPages, page, limit⟩⟩
  | _, _ => none

end ProductUseCase

namespace InventoryLogUseCase

/-- `getProductHistory(productId)` (implemented identically in
`ProductUseCase` and `InventoryLogUseCase`): 404 when the product does not
exist, otherwise the product's logs newest-first. -/
def getProductHistory (db : DB) (productId : Nat) : Except Err (List LogRow) :=
  match ProductRepository.findById db productId with
  | none => .error (.app "Product not found." 404)
  | some _ => .ok (InventoryLogRepository.findLogsByProductId db productId)

end InventoryLogUseCase

/-! ### Facts about the `ORDER BY` model -/

theorem mem_sqlInsert {le : α → α → Bool} {x z : α} {l : List α} :
    z ∈ sqlInsert le x l ↔ z = x ∨ z ∈ l := by
  induction l with
  | nil => simp [sqlInsert]
  | cons y ys ih =>
    rw [sqlInsert]
    by_cases h : le x y
    · simp [h]
    · simp [h, ih]
      tauto

theorem sqlInsert_perm (le : α → α → Bool) (x : α) (l : List α) :
    List.Perm (sqlInsert le x l) (x :: l) := by
  induction l with
  | nil => simp [sqlInsert]
  | cons y ys ih =>
    rw [sqlInsert]
    by_cases h : le x y
    · simp [h]
    · simp only [h, if_neg, Bool.false_eq_true, ite_false]
      exact (ih.cons y).trans (List.Perm.swap x y ys)

theorem sqlSort_perm (le : α → α → Bool) (l : List α) : List.Perm (sqlSort le l) l := by
  induction l with
  | nil => simp [sqlSort]
  | cons x xs ih =>
    rw [sqlSort]
    exact (sqlInsert_perm le x (sqlSort le xs)).trans (ih.cons x)

theorem pairwise_sqlInsert {le : α → α → Bool}
    (htrans : ∀ a b c, le a b = true → le b c = true → le a c = true)
    (htot : ∀ a b, le a b = true ∨ le b a = true) (x : α) (l : List α)
    (hl : l.Pairwise (fun a b => le a b = true)) :
    (sqlInsert le x l).Pairwise (fun a b => le a b = true) := by
  induction l with
  | nil => simp [sqlInsert]
  | cons y ys ih =>
    rcases List.pairwise_cons.mp hl with ⟨hy, hys⟩
    rw [sqlInsert]
    by_cases h : le x y
    · simp only [h, ite_true]
      refine List.pairwise_cons.mpr ⟨?_, hl⟩
      intro z hz
      rcases List.mem_cons.mp hz with rfl | hz
      · exact h
      · exact htrans x y z h (hy z hz)
    · have hyx : le y x = true := (htot x y).resolve_left (by simpa using h)
      simp only [h, Bool.false_eq_true, ite_false]
      refine List.pairwise_cons.mpr ⟨?_, ih hys⟩
      intro z hz
      rcases mem_sqlInsert.mp hz with rfl | hz
      · exact hyx
      · exact hy z hz

theorem pairwise_sqlSort {le : α → α → Bool}
    (htrans : ∀ a b c, le a b = true → le b c = true → le a c = true)
    (htot : ∀ a b, le a b = true ∨ le b a = true) (l : List α) :
    (sqlSort le l).Pairwise (fun a b => le a b = true) := by
  induction l with
  | nil => simp [sqlSort]
  | cons x xs ih =>
    rw [sqlSort]
    exact pairwise_sqlInsert htrans htot x _ ih

theorem charsLe_total : ∀ a b : List Char, charsLe a b = true ∨ charsLe b a = true := by
  intro a
  induction a with
  | nil => intro b; left; rfl
  | cons c cs ih =>
    intro b
    cases b with
    | nil => right; rfl
    | cons d ds =>
      by_cases h1 : c.toNat < d.toNat
      · left; simp [charsLe, h1]
      · by_cases h2 : d.toNat < c.toNat
        · right; simp [charsLe, h2]
        · have he : c.toNat = d.toNat := by omega
          rcases ih ds with h | h
          · left; simp [charsLe, h1, h2, h]
          · right; simp [charsLe, h1, h2, he, h]

theorem charsLe_trans :
    ∀ a b c : List Char, charsLe a b = true → charsLe b c = true → charsLe a c = true := by
  intro a
  induction a with
  | nil => intro b c _ _; rfl
  | cons x xs ih =>
    intro b c hab hbc
    cases b with
    | nil => simp [charsLe] at hab
    | cons y ys =>
      cases c with
      | nil => simp [charsLe] at hbc
      | cons z zs =>
        rw [charsLe] at hab hbc ⊢
        by_cases hxy : x.toNat < y.toNat
        · by_cases hyz : y.toNat < z.toNat
          · simp [show x.toNat < z.toNat by omega]
          · by_cases hzy : z.toNat < y.toNat
            · simp [hyz, hzy] at hbc
            · simp [show x.toNat < z.toNat by omega]
        · by_cases hyx : y.toNat < x.toNat
          · simp [hxy, hyx] at hab
          · by_cases hyz : y.toNat < z.toNat
            · simp [show x.toNat < z.toNat by omega]
            · by_cases hzy : z.toNat < y.toNat
              · simp [hyz, hzy] at hbc
              · have hxz : ¬ x.toNat < z.toNat := by omega
                have hzx : ¬ z.toNat < x.toNat := by omega
                simp only [hxy, hyx, if_false, ite_false] at hab
                simp only [hyz, hzy, if_false, ite_false] at hbc
                simp only [hxz, hzx, if_false, ite_false]
                exact ih ys zs hab hbc

theorem stockLe_total : ∀ a b : StockVal, stockLe a b = true ∨ stockLe b a = true := by
  intro a b
  cases a <;> cases b <;> simp [stockLe]
  · exact Int.le_total _ _
  · exact charsLe_total _ _

theorem stockLe_trans :
    ∀ a b c : StockVal, stockLe a b = true → stockLe b c = true → stockLe a c = true := by
  intro a b c hab hbc
  cases a <;> cases b <;> cases c <;> simp_all [stockLe]
  · omega
  · exact charsLe_trans _ _ _ hab hbc

theorem sortKeyLe_total (s : String) :
    ∀ a b : Product, sortKeyLe s a b = true ∨ sortKeyLe s b a = true := by
  intro a b
  unfold sortKeyLe
  split_ifs
  · exact charsLe_total _ _
  · exact stockLe_total _ _
  · simp; omega
  · simp; omega

theorem sortKeyLe_trans (s : String) :
    ∀ a b c : Product,
      sortKeyLe s a b = true → sortKeyLe s b c = true → sortKeyLe s a c = true := by
  intro a b c
  unfold sortKeyLe
  split_ifs
  · exact charsLe_trans _ _ _
  · exact stockLe_trans _ _ _
  · simp; omega
  · simp; omega

theorem findAllOrderLe_total (sf so : Option String) :
    ∀ a b : Product, findAllOrderLe sf so a b = true ∨ findAllOrderLe sf so b a = true := by
  intro a b
  unfold findAllOrderLe
  cases sf with
  | none => simp; omega
  | some s =>
    by_cases hs : (s != "" && allowedSortFields.contains s) = true
    · simp only [hs, ite_true]
      by_cases hd : isDescOrder so = true
      · simp only [hd, ite_true]
        exact sortKeyLe_total s b a
      · simp only [hd, Bool.false_eq_true, ite_false]
        exact sortKeyLe_total s a b
    · simp only [hs, Bool.false_eq_true, ite_false]
      simp
      omega

theorem findAllOrderLe_trans (sf so : Option String) :
    ∀ a b c : Product,
      findAllOrderLe sf so a b = true → findAllOrderLe sf so b c = true →
      findAllOrderLe sf so a c = true := by
  intro a b c
  unfold findAllOrderLe
  cases sf with
  | none => simp; omega
  | some s =>
    by_cases hs : (s != "" && allowedSortFields.contains s) = true
    · simp only [hs, ite_true]
      by_cases hd : isDescOrder so = true
      · simp only [hd, ite_true]
        intro h1 h2
        exact sortKeyLe_trans s c b a h2 h1
      · simp only [hd, Bool.false_eq_true, ite_false]
        exact sortKeyLe_trans s a b c
    · simp only [hs, Bool.false_eq_true, ite_false]
      simp
      omega

/-! ### Store invariants used as hypotheses

Both predicates hold of every state SQLite can actually reach: names are
`UNIQUE COLLATE NOCASE`, and a value stored through the INTEGER affinity of
the `stock` column is by construction a fixed point of that affinity. -/

/-- The `UNIQUE COLLATE NOCASE` constraint on `products.name`: no two rows
have case-insensitively equal names. -/
def NamesUnique (db : DB) : Prop :=
  db.products.Pairwise (fun p q => nocaseEq p.name q.name = false)

instance : DecidablePred NamesUnique := fun db =>
  inferInstanceAs (Decidable (db.products.Pairwise fun p q : Product => nocaseEq p.name q.name = false))

/-- Stored stock values are fixed points of INTEGER affinity (true of any
value that entered the column through a bind). -/
def StockCanonical (db : DB) : Prop :=
  ∀ p ∈ db.products, logStockAffinity p.stock = p.stock

instance : DecidablePred StockCanonical := fun db =>
  inferInstanceAs (Decidable (∀ p ∈ db.products, logStockAffinity p.stock = p.stock))

/-- Claim C6: `getProductHistory(productId)` fails with
`NotFoundError("Product not found.")` (404) exactly when no product with
that id exists; otherwise it returns precisely the inventory logs whose
`productId` matches, ordered newest-first by descending timestamp. -/
theorem getProductHistory_spec (db : DB) (productId : Nat) :
    (InventoryLogUseCase.getProductHistory db productId =
        .error (.app "Product not found." 404)
      ↔ ProductRepository.findById db productId = none)
    ∧ ∀ l, InventoryLogUseCase.getProductHistory db productId = .ok l →
        List.Perm l (db.logs.filter (fun r => r.productId == productId))
        ∧ l.Pairwise (fun a b => b.timestamp ≤ a.timestamp) := by
  unfold InventoryLogUseCase.getProductHistory
  cases h : ProductRepository.findById db productId with
  | none =>
    refine ⟨by simp, ?_⟩
    intro l hl
    simp at hl
  | some p =>
    refine ⟨by simp, ?_⟩
    intro l hl
    simp only [Except.ok.injEq] at hl
    subst hl
    constructor
    · exact sqlSort_perm _ _
    · have hp := @pairwise_sqlSort LogRow
        (fun a b : LogRow => decide (b.timestamp ≤ a.timestamp))
        (fun a b c h1 h2 => by simp at h1 h2 ⊢; omega)
        (fun a b => by simp; omega)
        (db.logs.filter (fun r => r.productId == productId))
      exact hp.imp (fun h => of_decide_eq_true h)

/-- A concrete store for the C6 witness: product 7 with two logs. -/
def dbC6 : DB :=
  ⟨[⟨7, "Rice", some "kg", some "food", some "b", StockVal.int 3, some "active", none, 1, 1⟩],
    [⟨1, 7, StockVal.int 3, 5, some "a", 4⟩, ⟨2, 7, StockVal.int 5, 6, some "a", 9⟩],
    8, 3, 20⟩

/-- Witness for C6 on a concrete store: product 99 does not exist in
`dbC6`. -/
theorem getProductHistory_spec_witness :
    (InventoryLogUseCase.getProductHistory dbC6 99 =
        .error (.app "Product not found." 404)
      ↔ ProductRepository.findById dbC6 99 = none)
    ∧ ∀ l, InventoryLogUseCase.getProductHistory dbC6 99 = .ok l →
        List.Perm l (dbC6.logs.filter (fun r => r.productId == 99))
        ∧ l.Pairwise (fun a b => b.timestamp ≤ a.timestamp) :=
  getProductHistory_spec dbC6 99

/-- The ordering claimed by the spec for product listings, written from the
spec's words: when the sort field is in the allow-list
`{name, stock, createdAt, updatedAt}`, order by that field, descending
exactly when `order` case-insensitively equals `DESC` and ascending
otherwise; when the sort field is absent or not in the allow-list, order by
`updatedAt` descending.  (Refinement target for the comparator the
repository builds.) -/
def specOrderLe (sortField sortOrder : Option String) (a b : Product) : Bool :=
  match sortField with
  | some s =>
    if ["name", "stock", "createdAt", "updatedAt"].contains s then
      if sortOrder.map strUpper == some "DESC" then sortKeyLe s b a else sortKeyLe s a b
    else decide (b.updatedAt ≤ a.updatedAt)
  | none => decide (b.updatedAt ≤ a.updatedAt)

theorem allowCond_eq (s : String) :
    (s != "" && allowedSortFields.contains s)
      = (["name", "stock", "createdAt", "updatedAt"].contains s) := by
  by_cases h1 : s = "name"
  · subst h1; rfl
  · by_cases h2 : s = "stock"
    · subst h2; rfl
    · by_cases h3 : s = "createdAt"
      · subst h3; rfl
      · by_cases h4 : s = "updatedAt"
        · subst h4; rfl
        · simp [allowedSortFields, h1, h2, h3, h4]

theorem descCond_eq (so : Option String) :
    isDescOrder so = (so.map strUpper == some "DESC") := by
  cases so with
  | none => rfl
  | some o => simp [isDescOrder]

theorem findAllOrderLe_eq_spec (sf so : Option String) (a b : Product) :
    findAllOrderLe sf so a b = specOrderLe sf so a b := by
  unfold findAllOrderLe specOrderLe
  cases sf with
  | none => rfl
  | some s =>
    dsimp only
    rw [allowCond_eq s]
    by_cases hs : (["name", "stock", "createdAt", "updatedAt"].contains s) = true
    · simp only [hs, ite_true]
      rw [descCond_eq so]
    · simp only [eq_false_of_ne_true hs, Bool.false_eq_true, ite_false]

/-- Claim C8: Every `findAll` result is ordered as the spec states: by the
requested allow-listed field (`DESC` exactly when `order` case-insensitively
equals `DESC`, ascending otherwise), and by `updatedAt` descending when the
sort field is absent or not allow-listed. -/
theorem findAll_ordering (db : DB) (q : FindAllParams) :
    (ProductRepository.findAll db q).Pairwise
      (fun a b => specOrderLe q.sortField q.sortOrder a b = true) := by
  have hsorted := @pairwise_sqlSort Product (findAllOrderLe q.sortField q.sortOrder)
    (findAllOrderLe_trans q.sortField q.sortOrder)
    (findAllOrderLe_total q.sortField q.sortOrder)
    (db.products.filter (matchesNameFilter q.searchName))
  have hsorted2 : (sqlSort (findAllOrderLe q.sortField q.sortOrder)
      (db.products.filter (matchesNameFilter q.searchName))).Pairwise
      (fun a b => specOrderLe q.sortField q.sortOrder a b = true) :=
    hsorted.imp (fun h => by rw [← findAllOrderLe_eq_spec]; exact h)
  unfold ProductRepository.findAll
  rcases q.limit with _ | l
  · exact hsorted2
  · rcases q.offset with _ | o
    · exact hsorted2
    · by_cases hneg : l < 0
      · simp only [hneg, ite_true]
        exact List.Pairwise.sublist (List.drop_sublist _ _) hsorted2
      · simp only [hneg, Bool.false_eq_true, ite_false]
        exact List.Pairwise.sublist
          ((List.take_sublist _ _).trans (List.drop_sublist _ _)) hsorted2

theorem mathCeilDiv_spec (a b : Int) (hb : 0 < b) :
    a ≤ ProductUseCase.mathCeilDiv a b * b
      ∧ (ProductUseCase.mathCeilDiv a b - 1) * b < a := by
  unfold ProductUseCase.mathCeilDiv
  rw [if_pos hb]
  have h1 := Int.ediv_add_emod (-a) b
  have h2 := Int.emod_nonneg (-a) (by omega : b ≠ 0)
  have h3 := Int.emod_lt_of_pos (-a) hb
  constructor
  · nlinarith [h1, h2]
  · nlinarith [h1, h3]

/-- Claim C7: `getProducts` defaults `page` to 1 and `limit` to 10, passes
`offset = (page - 1) * limit` to the row query, reports
`currentPage`/`limit` back, computes `totalItems` with the same name filter
as the row query but independent of pagination, and returns
`totalPages = ceil(totalItems / limit)` (characterized by the two bounds
below, which pin the ceiling uniquely for `limit ≥ 1`). -/
theorem getProducts_pagination (db : DB) (params : ProductUseCase.QueryParams)
    (page limit : Int)
    (hp : ProductUseCase.resolveNum params.page 1 = some page)
    (hl : ProductUseCase.resolveNum params.limit 10 = some limit)
    (hl1 : 1 ≤ limit) :
    ∃ res, ProductUseCase.getProducts db params = some res
      ∧ res.data = ProductRepository.findAll db
          ⟨some limit, some ((page - 1) * limit), params.name, params.sort, params.order⟩
      ∧ res.pagination.totalItems =
          ((db.products.filter (matchesNameFilter params.name)).length : Int)
      ∧ res.pagination.totalItems ≤ res.pagination.totalPages * limit
      ∧ (res.pagination.totalPages - 1) * limit < res.pagination.totalItems
      ∧ res.pagination.currentPage = page
      ∧ res.pagination.limit = limit := by
  unfold ProductUseCase.getProducts
  rw [hp, hl]
  dsimp only
  rw [if_neg (by omega : ¬ limit ≤ 0)]
  refine ⟨_, rfl, rfl, rfl, ?_, ?_, rfl, rfl⟩
  · exact (mathCeilDiv_spec _ limit (by omega)).1
  · exact (mathCeilDiv_spec _ limit (by omega)).2

/-- A concrete store of ten products for the C7 witness. -/
def dbC7 : DB :=
  ⟨(List.range 10).map (fun i =>
      ⟨i + 1, "P" ++ toString (i + 1), some "u", some "c", some "b",
        StockVal.int 1, some "s", none, i, i⟩),
    [], 11, 1, 100⟩

/-- Witness for C7: ten products, `page = "1"`, `limit = "2"`; the claimed
shape holds and `totalPages` evaluates to 5. -/
theorem getProducts_pagination_witness :
    (∃ res, ProductUseCase.getProducts dbC7 ⟨some "1", some "2", none, none, none⟩ = some res
      ∧ res.data = ProductRepository.findAll dbC7 ⟨some 2, some 0, none, none, none⟩
      ∧ res.pagination.totalItems =
          ((dbC7.products.filter (matchesNameFilter none)).length : Int)
      ∧ res.pagination.totalItems ≤ res.pagination.totalPages * 2
      ∧ (res.pagination.totalPages - 1) * 2 < res.pagination.totalItems
      ∧ res.pagination.currentPage = 1
      ∧ res.pagination.limit = 2)
    ∧ (ProductUseCase.getProducts dbC7 ⟨some "1", some "2", none, none, none⟩).map
        (fun r => r.pagination.totalPages) = some 5 := by
  constructor
  · have h := getProducts_pagination dbC7 ⟨some "1", some "2", none, none, none⟩ 1 2
      (by decide) (by decide) (by decide)
    simpa using h
  · decide

/-! ### C2: the update-plus-log sequence is not atomic -/

/-- Store for C2: one product, id 1, stock 5. -/
def dbC2 : DB :=
  ⟨[⟨1, "Beans", some "kg", some "food", some "acme", StockVal.int 5, some "active", none, 1, 1⟩],
    [], 2, 1, 10⟩

/-- Update payload for C2: passes validation (`Number(null) = 0`), but its
raw `stock` value is `null`, so the `UPDATE` statement itself violates the
column's `NOT NULL` constraint after the log insert already committed. -/
def rowC2 : RowData :=
  ⟨.str "Beans", .str "kg", .str "food", .str "acme", .str "active", .null, .undefined⟩

/-- Claim C2, failing execution: on `dbC2`/`rowC2` the call passes
validation, inserts the audit-log row recording `5 → 0`, and then fails in
the product-row `UPDATE`; the final store keeps the new log row while the
product row is unchanged.  There is no all-or-nothing transaction: an
audit-log entry exists without the corresponding stock change. -/
theorem updateProduct_not_atomic :
    ProductUseCase.validateProductData rowC2 = .ok ()
    ∧ (ProductUseCase.updateProduct dbC2 1 rowC2 (.str "admin")).1 =
        .error (.sql "NOT NULL constraint failed: products.stock")
    ∧ (ProductUseCase.updateProduct dbC2 1 rowC2 (.str "admin")).2.logs =
        [⟨1, 1, StockVal.int 5, 0, some "admin", 10⟩]
    ∧ (ProductUseCase.updateProduct dbC2 1 rowC2 (.str "admin")).2.products =
        dbC2.products := by
  refine ⟨by decide, by decide, by decide, by decide⟩

/-! ### C9: on which error outcomes is the store unchanged? -/

theorem stockBind_errors_are_sql (v : JSVal) (m : String) (c : Nat) :
    stockBind v ≠ .error (.app m c) := by
  cases v with
  | undefined => simp [stockBind]
  | null => simp [stockBind]
  | num n =>
    simp only [stockBind]
    split_ifs <;> simp
  | str s =>
    simp only [stockBind]
    cases affinityInt s with
    | none => simp
    | some n =>
      simp only
      split_ifs <;> simp

theorem update_errors_are_sql (db : DB) (id : Nat) (d : RowData) (m : String) (c : Nat) :
    (ProductRepository.update db id d).1 ≠ .error (.app m c) := by
  unfold ProductRepository.update
  cases db.products.find? (fun p => p.id == id) with
  | none => simp
  | some p =>
    simp only
    cases textBind d.name with
    | none => simp
    | some nm =>
      simp only
      split_ifs
      · simp
      · cases hs : stockBind d.stock with
        | error e =>
          simp only [hs]
          intro hcontra
          have he : e = Err.app m c := by simpa using hcontra
          exact stockBind_errors_are_sql d.stock m c (he ▸ hs)
        | ok sv => simp [hs]

/-- Claim C9, amended: whenever `updateProduct` fails with an operational
`AppError` — a validation error, the `NotFoundError`, or the name-conflict
`ConflictError`, which are exactly the `.app` errors it can produce — no
repository write has occurred: the store is returned unchanged.  (A failure
of the final row update itself, a `.sql` error, is excluded: see the
counterexample, where the log row survives such a failure.) -/
theorem updateProduct_appError_state_unchanged (db : DB) (id : Nat) (d : RowData)
    (cb : JSVal) (m : String) (c : Nat)
    (h : (ProductUseCase.updateProduct db id d cb).1 = .error (.app m c)) :
    (ProductUseCase.updateProduct db id d cb).2 = db := by
  unfold ProductUseCase.updateProduct at h ⊢
  cases hv : ProductUseCase.validateProductData d with
  | error e => simp [hv]
  | ok u =>
    cases u
    simp only [hv] at h ⊢
    cases hf : ProductRepository.findById db id with
    | none => simp
    | some e =>
      simp only [hf] at h ⊢
      cases hn : ProductRepository.findByName db d.name with
      | some pbn =>
        simp only [hn] at h ⊢
        by_cases hid : (pbn.id != e.id) = true
        · simp [hid]
        · simp only [Bool.not_eq_true] at hid
          simp only [hid, Bool.false_eq_true, ite_false] at h ⊢
          cases hjs : jsNumber d.stock with
          | none => simp
          | some ns =>
            simp only [hjs] at h ⊢
            exact absurd h (update_errors_are_sql _ id d m c)
      | none =>
        simp only [hn, Bool.false_eq_true, ite_false] at h ⊢
        cases hjs : jsNumber d.stock with
        | none => simp
        | some ns =>
          simp only [hjs] at h ⊢
          exact absurd h (update_errors_are_sql _ id d m c)

/-- Witness for the amended C9: a name-conflict error on a concrete store
leaves the store unchanged. -/
theorem updateProduct_appError_state_unchanged_witness :
    (ProductUseCase.updateProduct
        ⟨[⟨1, "Tea", some "kg", some "d", some "b", StockVal.int 2, some "a", none, 1, 1⟩,
          ⟨2, "Chai", some "kg", some "d", some "b", StockVal.int 3, some "a", none, 2, 2⟩],
          [], 3, 1, 9⟩ 2
        ⟨.str "TEA", .str "kg", .str "d", .str "b", .str "a", .num 3, .undefined⟩
        (.str "x")).1 = .error (.app "Product name 'TEA' already exists." 400)
    ∧ (ProductUseCase.updateProduct
        ⟨[⟨1, "Tea", some "kg", some "d", some "b", StockVal.int 2, some "a", none, 1, 1⟩,
          ⟨2, "Chai", some "kg", some "d", some "b", StockVal.int 3, some "a", none, 2, 2⟩],
          [], 3, 1, 9⟩ 2
        ⟨.str "TEA", .str "kg", .str "d", .str "b", .str "a", .num 3, .undefined⟩
        (.str "x")).2 =
      ⟨[⟨1, "Tea", some "kg", some "d", some "b", StockVal.int 2, some "a", none, 1, 1⟩,
          ⟨2, "Chai", some "kg", some "d", some "b", StockVal.int 3, some "a", none, 2, 2⟩],
          [], 3, 1, 9⟩ :=
  ⟨by decide,
   updateProduct_appError_state_unchanged _ 2 _ (.str "x")
     "Product name 'TEA' already exists." 400 (by decide)⟩

/-- Store and row for the C9 counterexample (stock `null` again, a
different product). -/
def dbC9 : DB :=
  ⟨[⟨2, "Corn", some "kg", some "grain", some "acme", StockVal.int 7, some "active", none, 1, 1⟩],
    [], 3, 1, 5⟩

/-- Row for the C9 counterexample. -/
def rowC9 : RowData :=
  ⟨.str "Corn", .str "kg", .str "grain", .str "acme", .str "active", .null, .undefined⟩

/-- Claim C9, counterexample to the claim as stated: an error outcome of
`updateProduct` (the `NOT NULL` failure of the row update) after which the
store differs from the initial one — a log row was written. -/
theorem updateProduct_error_with_write :
    (∃ e, (ProductUseCase.updateProduct dbC9 2 rowC9 (.str "ops")).1 = .error e)
    ∧ (ProductUseCase.updateProduct dbC9 2 rowC9 (.str "ops")).2 ≠ dbC9 :=
  ⟨⟨.sql "NOT NULL constraint failed: products.stock", by decide⟩, by decide⟩

/-! ### C10: `null` / empty-string stock versus validation and persistence -/

/-- All five required fields of `_validateProductData` present and
non-blank. -/
def requiredOk (r : RowData) : Bool :=
  !ProductUseCase.fieldMissing r.name && !ProductUseCase.fieldMissing r.unit &&
  !ProductUseCase.fieldMissing r.category && !ProductUseCase.fieldMissing r.brand &&
  !ProductUseCase.fieldMissing r.status

/-- Store for the C10 statements: product 4, stock 2. -/
def dbC10 : DB :=
  ⟨[⟨4, "Milk", some "l", some "dairy", some "acme", StockVal.int 2, some "active", none, 1, 1⟩],
    [], 5, 1, 30⟩

/-- Base update payload for C10 (its `stock` field is varied below). -/
def rowC10 : RowData :=
  ⟨.str "Milk", .str "l", .str "dairy", .str "acme", .str "active", .num 2, .undefined⟩

/-- Claim C10, amended: `_validateProductData` accepts a `null` or
empty-string `stock` (`Number` coerces both to `0`) and rejects an absent
(`undefined`) or non-numeric one with the stock error; `importProducts`
therefore creates such rows with stock `0` (via `stock || 0`); and
`updateProduct` accepts them, using `0` as the `newStock` of the log
comparison — but it persists the raw value, so an empty-string stock is
stored as the empty string and a `null` stock fails the store's NOT NULL
constraint instead of being stored as `0`. -/
theorem validate_stock_nullish (r : RowData) (hreq : requiredOk r = true) :
    ProductUseCase.validateProductData { r with stock := .null } = .ok ()
    ∧ ProductUseCase.validateProductData { r with stock := .str "" } = .ok ()
    ∧ ProductUseCase.validateProductData { r with stock := .undefined } =
        .error (.app ProductUseCase.stockErrMsg 400)
    ∧ (∀ s, jsNumber (.str s) = none →
        ProductUseCase.validateProductData { r with stock := .str s } =
          .error (.app ProductUseCase.stockErrMsg 400))
    ∧ (ProductUseCase.importProducts ⟨[], [], 1, 1, 0⟩
        [{ rowC10 with stock := .null }]).2.products.map (fun p => p.stock) = [.int 0]
    ∧ (ProductUseCase.importProducts ⟨[], [], 1, 1, 0⟩
        [{ rowC10 with stock := .str "" }]).2.products.map (fun p => p.stock) = [.int 0]
    ∧ (ProductUseCase.updateProduct dbC10 4 { rowC10 with stock := .str "" }
        (.str "u")).2.logs.map (fun l => l.newStock) = [0]
    ∧ (ProductUseCase.updateProduct dbC10 4 { rowC10 with stock := .str "" }
        (.str "u")).2.products.map (fun p => p.stock) = [.text ""]
    ∧ (ProductUseCase.updateProduct dbC10 4 { rowC10 with stock := .null }
        (.str "u")).1 = .error (.sql "NOT NULL constraint failed: products.stock") := by
  simp only [requiredOk, Bool.and_eq_true, Bool.not_eq_true'] at hreq
  obtain ⟨⟨⟨⟨h1, h2⟩, h3⟩, h4⟩, h5⟩ := hreq
  refine ⟨?_, ?_, ?_, ?_, by decide, by decide, by decide, by decide, by decide⟩
  · simp [ProductUseCase.validateProductData, h1, h2, h3, h4, h5, jsNumber]
  · simp [ProductUseCase.validateProductData, h1, h2, h3, h4, h5, jsNumber, trimData]
  · simp [ProductUseCase.validateProductData, h1, h2, h3, h4, h5, jsNumber]
  · intro s hs
    simp [ProductUseCase.validateProductData, h1, h2, h3, h4, h5, hs]

/-- Witness for the amended C10 at a concrete record. -/
theorem validate_stock_nullish_witness :
    ProductUseCase.validateProductData { rowC10 with stock := .null } = .ok ()
    ∧ ProductUseCase.validateProductData { rowC10 with stock := .str "" } = .ok ()
    ∧ ProductUseCase.validateProductData { rowC10 with stock := .undefined } =
        .error (.app ProductUseCase.stockErrMsg 400)
    ∧ (∀ s, jsNumber (.str s) = none →
        ProductUseCase.validateProductData { rowC10 with stock := .str s } =
          .error (.app ProductUseCase.stockErrMsg 400))
    ∧ (ProductUseCase.importProducts ⟨[], [], 1, 1, 0⟩
        [{ rowC10 with stock := .null }]).2.products.map (fun p => p.stock) = [.int 0]
    ∧ (ProductUseCase.importProducts ⟨[], [], 1, 1, 0⟩
        [{ rowC10 with stock := .str "" }]).2.products.map (fun p => p.stock) = [.int 0]
    ∧ (ProductUseCase.updateProduct dbC10 4 { rowC10 with stock := .str "" }
        (.str "u")).2.logs.map (fun l => l.newStock) = [0]
    ∧ (ProductUseCase.updateProduct dbC10 4 { rowC10 with stock := .str "" }
        (.str "u")).2.products.map (fun p => p.stock) = [.text ""]
    ∧ (ProductUseCase.updateProduct dbC10 4 { rowC10 with stock := .null }
        (.str "u")).1 = .error (.sql "NOT NULL constraint failed: products.stock") :=
  validate_stock_nullish rowC10 (by decide)

/-- Claim C10, counterexample to the claim as stated: a `null` stock passes
validation, yet `updateProduct` does not treat it as a valid stock `0` —
the call fails on the store's NOT NULL constraint and no product row ends
up with stock `0`. -/
theorem updateProduct_null_stock_rejected :
    ProductUseCase.validateProductData { rowC10 with stock := .null } = .ok ()
    ∧ (ProductUseCase.updateProduct dbC10 4 { rowC10 with stock := .null }
        (.str "u")).1 = .error (.sql "NOT NULL constraint failed: products.stock")
    ∧ (ProductUseCase.updateProduct dbC10 4 { rowC10 with stock := .null }
        (.str "u")).2.products.map (fun p => p.stock) = [.int 2] := by
  refine ⟨by decide, by decide, by decide⟩

/-! ### C1: a log row is written exactly when the update changes stock -/

theorem update_preserves_logs (db : DB) (id : Nat) (d : RowData) :
    (ProductRepository.update db id d).2.logs = db.logs := by
  unfold ProductRepository.update
  cases db.products.find? (fun p => p.id == id) with
  | none => rfl
  | some q =>
    simp only
    cases textBind d.name with
    | none => rfl
    | some nm =>
      simp only
      split_ifs
      · rfl
      · cases hsb : stockBind d.stock with
        | error e => simp only [hsb]
        | ok sv => simp only [hsb]

/-- Claim C1: For every successful `updateProduct(id, updateData, changedBy)`
call on a store whose stock values are canonical: with `a` the existing
product's stock and `b = Number(updateData.stock)`, if `a !== b` exactly one
inventory-log row is appended, carrying `productId = id`, `oldStock = a`,
`newStock = b`, `changedBy = changedBy` (and the write-time timestamp); and
if `a === b`, the log table is unchanged.  A log row is created iff the
update changes stock. -/
theorem updateProduct_log_iff (db : DB) (id : Nat) (ud : RowData) (cb : String)
    (hcanon : StockCanonical db) (p : Product) (db' : DB)
    (hok : ProductUseCase.updateProduct db id ud (.str cb) = (.ok (some p), db')) :
    ∃ e b, ProductRepository.findById db id = some e ∧ jsNumber ud.stock = some b ∧
      ((stockNeNum e.stock b = true ∧
         db'.logs = db.logs ++ [⟨db.nextLogId, id, e.stock, b, some cb, db.now⟩])
       ∨ (stockNeNum e.stock b = false ∧ db'.logs = db.logs)) := by
  unfold ProductUseCase.updateProduct at hok
  cases hv : ProductUseCase.validateProductData ud with
  | error e => rw [hv] at hok; simp at hok
  | ok u =>
    cases u
    rw [hv] at hok
    cases hf : ProductRepository.findById db id with
    | none => rw [hf] at hok; simp at hok
    | some e =>
      rw [hf] at hok
      dsimp only at hok
      have hmem : e ∈ db.products := by
        have h := hf
        unfold ProductRepository.findById at h
        exact List.mem_of_find?_eq_some h
      by_cases hc : (match ProductRepository.findByName db ud.name with
          | some productByName => productByName.id != e.id
          | none => false) = true
      · rw [if_pos hc] at hok; simp at hok
      · rw [if_neg hc] at hok
        cases hjs : jsNumber ud.stock with
        | none => rw [hjs] at hok; simp at hok
        | some b =>
          rw [hjs] at hok
          dsimp only at hok
          have hdb' : (ProductRepository.update
              (if stockNeNum e.stock b = true then
                InventoryLogRepository.createLog db id e.stock b (.str cb)
              else db) id ud).2 = db' := congrArg Prod.snd hok
          refine ⟨e, b, rfl, rfl, ?_⟩
          by_cases hne : stockNeNum e.stock b = true
          · left
            refine ⟨hne, ?_⟩
            rw [← hdb', if_pos hne, update_preserves_logs]
            unfold InventoryLogRepository.createLog
            simp only [textBind]
            rw [hcanon e hmem]
          · right
            refine ⟨by simpa using hne, ?_⟩
            rw [← hdb', if_neg hne, update_preserves_logs]

/-- Store for the C1 witness: the spec's example scenario, product
`{id: 5, name: "Rice", stock: 10}`. -/
def dbC1 : DB :=
  ⟨[⟨5, "Rice", some "kg", some "food", some "abc", StockVal.int 10, some "active", none, 50, 50⟩],
    [], 6, 1, 100⟩

/-- Update payload for the C1 witness (`stock: 20`). -/
def rowC1 : RowData :=
  ⟨.str "Rice", .str "kg", .str "food", .str "abc", .str "active", .num 20, .undefined⟩

/-- The product row after the C1 witness update. -/
def prodC1 : Product :=
  ⟨5, "Rice", some "kg", some "food", some "abc", StockVal.int 20, some "active", none, 50, 101⟩

/-- The store after the C1 witness update: one log row `10 → 20` by
`admin@example.com`. -/
def dbC1' : DB :=
  ⟨[prodC1], [⟨1, 5, StockVal.int 10, 20, some "admin@example.com", 100⟩], 6, 2, 102⟩

/-- Witness for C1: the spec's example update `stock 10 → 20` succeeds and
the conclusion holds at that input. -/
theorem updateProduct_log_iff_witness :
    ∃ e b, ProductRepository.findById dbC1 5 = some e ∧ jsNumber rowC1.stock = some b ∧
      ((stockNeNum e.stock b = true ∧
         dbC1'.logs = dbC1.logs ++ [⟨dbC1.nextLogId, 5, e.stock, b, some "admin@example.com", dbC1.now⟩])
       ∨ (stockNeNum e.stock b = false ∧ dbC1'.logs = dbC1.logs)) :=
  updateProduct_log_iff dbC1 5 rowC1 "admin@example.com" (by decide) prodC1 dbC1' (by decide)

/-! ### C3 and C4: CSV import reconciliation -/

theorem create_mono (db : DB) (d : RowData) (x : Product) (hx : x ∈ db.products) :
    x ∈ (ProductRepository.create db d).2.products := by
  unfold ProductRepository.create
  cases textBind d.name with
  | none => exact hx
  | some nm =>
    simp only
    split_ifs
    · exact hx
    · cases hsb : stockBind (jsOr d.stock (.num 0)) with
      | error e => simp only [hsb]; exact hx
      | ok sv =>
        simp only [hsb]
        exact List.mem_append_left _ hx

theorem importStep_effects (st : ProductUseCase.ImportStats) (db : DB) (r : RowData) :
    ((ProductUseCase.importStep (st, db) r).1.added +
        (ProductUseCase.importStep (st, db) r).1.skipped = st.added + st.skipped + 1)
    ∧ ((ProductUseCase.importStep (st, db) r).1.duplicates.length + st.skipped ≤
        st.duplicates.length + (ProductUseCase.importStep (st, db) r).1.skipped)
    ∧ (∀ x ∈ db.products, x ∈ (ProductUseCase.importStep (st, db) r).2.products)
    ∧ (∀ dup ∈ (ProductUseCase.importStep (st, db) r).1.duplicates,
        dup ∈ st.duplicates ∨
          (ProductUseCase.validateProductData r = .ok () ∧ dup.name = r.name ∧
            ∃ p ∈ (ProductUseCase.importStep (st, db) r).2.products,
              p.id = dup.existingId ∧ ProductRepository.nameParamMatches r.name p.name = true)) := by
  cases hv : ProductUseCase.validateProductData r with
  | error e =>
    simp only [ProductUseCase.importStep, hv]
    exact ⟨by omega, by omega, fun x hx => hx, fun dup hdup => Or.inl hdup⟩
  | ok u =>
    cases u
    cases hn : ProductRepository.findByName db r.name with
    | some existing =>
      simp only [ProductUseCase.importStep, hv, hn]
      refine ⟨by omega, by simp only [List.length_append, List.length_singleton]; omega,
        fun x hx => hx, ?_⟩
      intro dup hdup
      rcases List.mem_append.mp hdup with h | h
      · exact Or.inl h
      · right
        rcases List.mem_singleton.mp h with rfl
        refine ⟨trivial, rfl, existing, ?_, rfl, ?_⟩
        · have h2 := hn
          unfold ProductRepository.findByName at h2
          exact List.mem_of_find?_eq_some h2
        · have h2 := hn
          unfold ProductRepository.findByName at h2
          simpa using List.find?_some h2
    | none =>
      cases hc : ProductRepository.create db r with
      | mk res db2 =>
        cases res with
        | error e =>
          simp only [ProductUseCase.importStep, hv, hn, hc]
          refine ⟨by omega, by omega, ?_, fun dup hdup => Or.inl hdup⟩
          intro x hx
          have hm := create_mono db r x hx
          rw [hc] at hm
          exact hm
        | ok q =>
          simp only [ProductUseCase.importStep, hv, hn, hc]
          refine ⟨by omega, by omega, ?_, fun dup hdup => Or.inl hdup⟩
          intro x hx
          have hm := create_mono db r x hx
          rw [hc] at hm
          exact hm

theorem importGo_spec (rows : List RowData) :
    ∀ (st : ProductUseCase.ImportStats) (db : DB),
    ((List.foldl ProductUseCase.importStep (st, db) rows).1.added +
        (List.foldl ProductUseCase.importStep (st, db) rows).1.skipped =
        st.added + st.skipped + rows.length)
    ∧ ((List.foldl ProductUseCase.importStep (st, db) rows).1.duplicates.length + st.skipped ≤
        st.duplicates.length + (List.foldl ProductUseCase.importStep (st, db) rows).1.skipped)
    ∧ (∀ x ∈ db.products, x ∈ (List.foldl ProductUseCase.importStep (st, db) rows).2.products)
    ∧ (∀ dup ∈ (List.foldl ProductUseCase.importStep (st, db) rows).1.duplicates,
        dup ∈ st.duplicates ∨
          ∃ r ∈ rows, ProductUseCase.validateProductData r = .ok ()
            ∧ dup.name = r.name
            ∧ ∃ p ∈ (List.foldl ProductUseCase.importStep (st, db) rows).2.products,
                p.id = dup.existingId
                ∧ ProductRepository.nameParamMatches r.name p.name = true) := by
  induction rows with
  | nil =>
    intro st db
    exact ⟨by simp, by simp, fun x hx => hx, fun dup hdup => Or.inl hdup⟩
  | cons r rest ih =>
    intro st db
    rw [List.foldl_cons]
    obtain ⟨hstep1, hstep2, hstep3, hstep4⟩ := importStep_effects st db r
    have ih' := ih (ProductUseCase.importStep (st, db) r).1
      (ProductUseCase.importStep (st, db) r).2
    rw [Prod.mk.eta] at ih'
    obtain ⟨ih1, ih2, ih3, ih4⟩ := ih'
    refine ⟨by simp only [List.length_cons]; omega, by omega, ?_, ?_⟩
    · intro x hx
      exact ih3 x (hstep3 x hx)
    · intro dup hdup
      rcases ih4 dup hdup with hin | ⟨r', hr', hval, hname, p, hp, hpid, hmatch⟩
      · rcases hstep4 dup hin with hin0 | ⟨hval, hname, p, hp, hpid, hmatch⟩
        · exact Or.inl hin0
        · exact Or.inr ⟨r, List.mem_cons_self r rest, hval, hname, p, ih3 p hp, hpid, hmatch⟩
      · exact Or.inr ⟨r', List.mem_cons_of_mem r hr', hval, hname, p, hp, hpid, hmatch⟩

/-- Claim C3: For every import batch, `added + skipped = rows.length`,
`duplicates` has at most `skipped` entries, and every duplicate entry comes
from a row that passed validation and case-insensitively matched an
existing product with the recorded id (the matched product is still in the
final store, since the import only ever inserts). -/
theorem importProducts_stats (db : DB) (rows : List RowData) :
    ((ProductUseCase.importProducts db rows).1.added +
        (ProductUseCase.importProducts db rows).1.skipped = rows.length)
    ∧ ((ProductUseCase.importProducts db rows).1.duplicates.length ≤
        (ProductUseCase.importProducts db rows).1.skipped)
    ∧ ∀ dup ∈ (ProductUseCase.importProducts db rows).1.duplicates,
        ∃ r ∈ rows, ProductUseCase.validateProductData r = .ok ()
          ∧ dup.name = r.name
          ∧ ∃ p ∈ (ProductUseCase.importProducts db rows).2.products,
              p.id = dup.existingId
              ∧ ProductRepository.nameParamMatches r.name p.name = true := by
  obtain ⟨h1, h2, _, h4⟩ := importGo_spec rows ⟨0, 0, []⟩ db
  refine ⟨by simpa using h1, by simpa using h2, ?_⟩
  intro dup hdup
  rcases h4 dup hdup with hin | h
  · simp at hin
  · exact h

/-- Witness for C3: a batch of three rows (one created, one duplicate of
it, one invalid) against an empty store. -/
theorem importProducts_stats_witness :
    ((ProductUseCase.importProducts ⟨[], [], 1, 1, 0⟩
        [⟨.str "Rice", .str "kg", .str "food", .str "abc", .str "active", .num 4, .undefined⟩,
         ⟨.str "rice", .str "kg", .str "food", .str "abc", .str "active", .num 5, .undefined⟩,
         ⟨.undefined, .str "kg", .str "food", .str "abc", .str "active", .num 6, .undefined⟩]).1.added +
      (ProductUseCase.importProducts ⟨[], [], 1, 1, 0⟩
        [⟨.str "Rice", .str "kg", .str "food", .str "abc", .str "active", .num 4, .undefined⟩,
         ⟨.str "rice", .str "kg", .str "food", .str "abc", .str "active", .num 5, .undefined⟩,
         ⟨.undefined, .str "kg", .str "food", .str "abc", .str "active", .num 6, .undefined⟩]).1.skipped = 3)
    ∧ ((ProductUseCase.importProducts ⟨[], [], 1, 1, 0⟩
        [⟨.str "Rice", .str "kg", .str "food", .str "abc", .str "active", .num 4, .undefined⟩,
         ⟨.str "rice", .str "kg", .str "food", .str "abc", .str "active", .num 5, .undefined⟩,
         ⟨.undefined, .str "kg", .str "food", .str "abc", .str "active", .num 6, .undefined⟩]).1.duplicates.length ≤
      (ProductUseCase.importProducts ⟨[], [], 1, 1, 0⟩
        [⟨.str "Rice", .str "kg", .str "food", .str "abc", .str "active", .num 4, .undefined⟩,
         ⟨.str "rice", .str "kg", .str "food", .str "abc", .str "active", .num 5, .undefined⟩,
         ⟨.undefined, .str "kg", .str "food", .str "abc", .str "active", .num 6, .undefined⟩]).1.skipped)
    ∧ ∀ dup ∈ (ProductUseCase.importProducts ⟨[], [], 1, 1, 0⟩
        [⟨.str "Rice", .str "kg", .str "food", .str "abc", .str "active", .num 4, .undefined⟩,
         ⟨.str "rice", .str "kg", .str "food", .str "abc", .str "active", .num 5, .undefined⟩,
         ⟨.undefined, .str "kg", .str "food", .str "abc", .str "active", .num 6, .undefined⟩]).1.duplicates,
        ∃ r ∈ [⟨.str "Rice", .str "kg", .str "food", .str "abc", .str "active", .num 4, .undefined⟩,
         ⟨.str "rice", .str "kg", .str "food", .str "abc", .str "active", .num 5, .undefined⟩,
         (⟨.undefined, .str "kg", .str "food", .str "abc", .str "active", .num 6, .undefined⟩ : RowData)],
          ProductUseCase.validateProductData r = .ok ()
          ∧ dup.name = r.name
          ∧ ∃ p ∈ (ProductUseCase.importProducts ⟨[], [], 1, 1, 0⟩
              [⟨.str "Rice", .str "kg", .str "food", .str "abc", .str "active", .num 4, .undefined⟩,
               ⟨.str "rice", .str "kg", .str "food", .str "abc", .str "active", .num 5, .undefined⟩,
               ⟨.undefined, .str "kg", .str "food", .str "abc", .str "active", .num 6, .undefined⟩]).2.products,
              p.id = dup.existingId
              ∧ ProductRepository.nameParamMatches r.name p.name = true :=
  importProducts_stats ⟨[], [], 1, 1, 0⟩ _

theorem importStep_of_invalid (acc : ProductUseCase.ImportStats × DB) (r : RowData)
    (e : Err) (h : ProductUseCase.validateProductData r = .error e) :
    ProductUseCase.importStep acc r =
      ({ acc.1 with skipped := acc.1.skipped + 1 }, acc.2) := by
  obtain ⟨st, db⟩ := acc
  simp only [ProductUseCase.importStep, h]

theorem importStep_skip_shift (st : ProductUseCase.ImportStats) (db : DB) (r : RowData) :
    ProductUseCase.importStep ({ st with skipped := st.skipped + 1 }, db) r =
      ({ (ProductUseCase.importStep (st, db) r).1 with
          skipped := (ProductUseCase.importStep (st, db) r).1.skipped + 1 },
        (ProductUseCase.importStep (st, db) r).2) := by
  cases hv : ProductUseCase.validateProductData r with
  | error e => simp only [ProductUseCase.importStep, hv]
  | ok u =>
    cases u
    cases hn : ProductRepository.findByName db r.name with
    | some existing => simp only [ProductUseCase.importStep, hv, hn]
    | none =>
      cases hc : ProductRepository.create db r with
      | mk res db2 =>
        cases res with
        | error e => simp only [ProductUseCase.importStep, hv, hn, hc]
        | ok q => simp only [ProductUseCase.importStep, hv, hn, hc]

theorem importGo_skip_shift (rows : List RowData) :
    ∀ (st : ProductUseCase.ImportStats) (db : DB),
    List.foldl ProductUseCase.importStep ({ st with skipped := st.skipped + 1 }, db) rows =
      ({ (List.foldl ProductUseCase.importStep (st, db) rows).1 with
          skipped := (List.foldl ProductUseCase.importStep (st, db) rows).1.skipped + 1 },
        (List.foldl ProductUseCase.importStep (st, db) rows).2) := by
  induction rows with
  | nil => intro st db; rfl
  | cons r rest ih =>
    intro st db
    rw [List.foldl_cons, List.foldl_cons, importStep_skip_shift]
    have := ih (ProductUseCase.importStep (st, db) r).1 (ProductUseCase.importStep (st, db) r).2
    rw [Prod.mk.eta] at this
    exact this

/-- Claim C4: A row that fails validation only increments `skipped`: dropping
it from anywhere in the batch leaves `added`, `duplicates`, and the final
store identical, with `skipped` one higher in the run that contains it —
row-level failures are swallowed and the remaining rows are processed
exactly as if the bad row were absent. -/
theorem importProducts_row_failure_isolated (db : DB) (pre post : List RowData)
    (r : RowData) (e : Err)
    (hbad : ProductUseCase.validateProductData r = .error e) :
    ProductUseCase.importProducts db (pre ++ r :: post) =
      ({ (ProductUseCase.importProducts db (pre ++ post)).1 with
          skipped := (ProductUseCase.importProducts db (pre ++ post)).1.skipped + 1 },
        (ProductUseCase.importProducts db (pre ++ post)).2) := by
  unfold ProductUseCase.importProducts
  rw [List.foldl_append, List.foldl_append, List.foldl_cons]
  rw [importStep_of_invalid (List.foldl ProductUseCase.importStep (⟨0, 0, []⟩, db) pre) r e hbad]
  have := importGo_skip_shift post
    (List.foldl ProductUseCase.importStep (⟨0, 0, []⟩, db) pre).1
    (List.foldl ProductUseCase.importStep (⟨0, 0, []⟩, db) pre).2
  rw [Prod.mk.eta] at this
  exact this

/-- Witness for C4: the invalid middle row (missing `name`) of a concrete
three-row batch adds exactly one skip relative to the batch without it. -/
theorem importProducts_row_failure_isolated_witness :
    ProductUseCase.importProducts ⟨[], [], 1, 1, 0⟩
        ([⟨.str "Rice", .str "kg", .str "food", .str "abc", .str "active", .num 4, .undefined⟩] ++
          ⟨.undefined, .str "kg", .str "food", .str "abc", .str "active", .num 6, .undefined⟩ ::
          [⟨.str "rice", .str "kg", .str "food", .str "abc", .str "active", .num 5, .undefined⟩]) =
      ({ (ProductUseCase.importProducts ⟨[], [], 1, 1, 0⟩
            ([⟨.str "Rice", .str "kg", .str "food", .str "abc", .str "active", .num 4, .undefined⟩] ++
              [⟨.str "rice", .str "kg", .str "food", .str "abc", .str "active", .num 5, .undefined⟩])).1 with
          skipped := (ProductUseCase.importProducts ⟨[], [], 1, 1, 0⟩
            ([⟨.str "Rice", .str "kg", .str "food", .str "abc", .str "active", .num 4, .undefined⟩] ++
              [⟨.str "rice", .str "kg", .str "food", .str "abc", .str "active", .num 5, .undefined⟩])).1.skipped + 1 },
        (ProductUseCase.importProducts ⟨[], [], 1, 1, 0⟩
            ([⟨.str "Rice", .str "kg", .str "food", .str "abc", .str "active", .num 4, .undefined⟩] ++
              [⟨.str "rice", .str "kg", .str "food", .str "abc", .str "active", .num 5, .undefined⟩])).2) :=
  importProducts_row_failure_isolated ⟨[], [], 1, 1, 0⟩ _ _ _
    (.app "Product field 'name' is required." 400) (by decide)

/-! ### C5: the duplicate-name rule of `updateProduct` -/

theorem validate_ok_stock (ud : RowData)
    (hv : ProductUseCase.validateProductData ud = .ok ()) :
    ∃ n, jsNumber ud.stock = some n ∧ 0 ≤ n := by
  unfold ProductUseCase.validateProductData at hv
  split_ifs at hv
  cases hjs : jsNumber ud.stock with
  | none => rw [hjs] at hv; simp at hv
  | some n =>
    rw [hjs] at hv
    dsimp only at hv
    by_cases hn : n < 0
    · rw [if_pos hn] at hv; simp at hv
    · exact ⟨n, rfl, by omega⟩

theorem validate_ok_name (ud : RowData)
    (hv : ProductUseCase.validateProductData ud = .ok ()) :
    ∃ nm, textBind ud.name = some nm := by
  unfold ProductUseCase.validateProductData at hv
  by_cases hm : ProductUseCase.fieldMissing ud.name = true
  · rw [if_pos hm] at hv; simp at hv
  · cases hname : ud.name with
    | undefined => rw [hname] at hm; simp [ProductUseCase.fieldMissing] at hm
    | null => rw [hname] at hm; simp [ProductUseCase.fieldMissing] at hm
    | str s => exact ⟨s, rfl⟩
    | num n => exact ⟨toString n, rfl⟩

theorem stockBind_ok_of_validate (ud : RowData)
    (hv : ProductUseCase.validateProductData ud = .ok ())
    (hnull : ud.stock ≠ .null) :
    ∃ sv, stockBind ud.stock = .ok sv := by
  obtain ⟨n, hjs, hn⟩ := validate_ok_stock ud hv
  cases hstock : ud.stock with
  | undefined => rw [hstock] at hjs; simp [jsNumber] at hjs
  | null => exact absurd hstock hnull
  | num m =>
    rw [hstock] at hjs
    simp [jsNumber] at hjs
    subst hjs
    exact ⟨.int m, by simp [stockBind, show ¬ m < 0 by omega]⟩
  | str s =>
    rw [hstock] at hjs
    cases htd : trimData s with
    | nil =>
      refine ⟨.text s, ?_⟩
      simp [stockBind, affinityInt, htd]
    | cons c cs =>
      simp only [jsNumber, htd] at hjs
      refine ⟨.int n, ?_⟩
      simp [stockBind, affinityInt, htd, hjs, show ¬ n < 0 by omega]

theorem nocaseEq_symm_eq (a b : String) : nocaseEq a b = nocaseEq b a := by
  unfold nocaseEq
  by_cases h : strLower a = strLower b
  · rw [h]
  · rw [beq_eq_false_iff_ne.mpr h, beq_eq_false_iff_ne.mpr (Ne.symm h)]

theorem nameMatch_unique (db : DB) (hu : NamesUnique db) (v : JSVal)
    (q1 q2 : Product) (h1 : q1 ∈ db.products) (h2 : q2 ∈ db.products)
    (hm1 : ProductRepository.nameParamMatches v q1.name = true)
    (hm2 : ProductRepository.nameParamMatches v q2.name = true) : q1 = q2 := by
  unfold ProductRepository.nameParamMatches at hm1 hm2
  cases htb : textBind v with
  | none => rw [htb] at hm1; simp at hm1
  | some s =>
    rw [htb] at hm1 hm2
    have hq1 : strLower q1.name = strLower s := by
      simpa [nocaseEq] using hm1
    have hq2 : strLower q2.name = strLower s := by
      simpa [nocaseEq] using hm2
    by_cases heq : q1 = q2
    · exact heq
    · have hsym : Symmetric (fun p q : Product => nocaseEq p.name q.name = false) :=
        fun p q h => by
          show nocaseEq q.name p.name = false
          rw [nocaseEq_symm_eq]
          exact h
      have hpair := List.Pairwise.forall hsym hu h1 h2 heq
      have : nocaseEq q1.name q2.name = true := by
        simp [nocaseEq, hq1, hq2]
      rw [this] at hpair
      cases hpair

theorem findById_mem_id (db : DB) (id : Nat) (e : Product)
    (hf : ProductRepository.findById db id = some e) : e ∈ db.products ∧ e.id = id := by
  unfold ProductRepository.findById at hf
  refine ⟨List.mem_of_find?_eq_some hf, ?_⟩
  have := List.find?_some hf
  simpa using this

theorem update_ok_of (db1 : DB) (id : Nat) (ud : RowData) (e : Product) (nm : String)
    (sv : StockVal)
    (hfind : db1.products.find? (fun p => p.id == id) = some e)
    (htb : textBind ud.name = some nm)
    (hnodup : db1.products.any (fun p => p.id != id && nocaseEq p.name nm) = false)
    (hsb : stockBind ud.stock = .ok sv) :
    ∃ v, (ProductRepository.update db1 id ud).1 = .ok v := by
  unfold ProductRepository.update
  rw [hfind]
  dsimp only
  rw [htb]
  dsimp only
  rw [if_neg (by rw [hnodup]; simp)]
  rw [hsb]
  exact ⟨_, rfl⟩

/-- Claim C5, amended: under the store's name-uniqueness invariant, for a
validated payload and an existing product, `updateProduct` fails with
`ConflictError("Product name '<name>' already exists.")` (400) exactly when
some product other than the one being updated case-insensitively owns
`updateData.name`; and an update keeping the product's own name (even with
different letter case) succeeds — provided the raw `stock` value is
storable (`stock: null` passes validation but fails the row update, see the
counterexample). -/
theorem updateProduct_name_conflict_iff (db : DB) (id : Nat) (ud : RowData) (cb : JSVal)
    (e : Product)
    (hu : NamesUnique db)
    (hv : ProductUseCase.validateProductData ud = .ok ())
    (hf : ProductRepository.findById db id = some e)
    (hnull : ud.stock ≠ .null) :
    ((ProductUseCase.updateProduct db id ud cb).1 =
        .error (.app ("Product name '" ++ jsDisplay ud.name ++ "' already exists.") 400)
      ↔ ∃ q ∈ db.products,
          ProductRepository.nameParamMatches ud.name q.name = true ∧ q.id ≠ e.id)
    ∧ (ProductRepository.nameParamMatches ud.name e.name = true →
        ∃ v, (ProductUseCase.updateProduct db id ud cb).1 = .ok v) := by
  obtain ⟨hmem, hid⟩ := findById_mem_id db id e hf
  obtain ⟨n, hjs, hn0⟩ := validate_ok_stock ud hv
  obtain ⟨sv, hsb⟩ := stockBind_ok_of_validate ud hv hnull
  obtain ⟨nm, htb⟩ := validate_ok_name ud hv
  have hfind1 : db.products.find? (fun p => p.id == id) = some e := by
    have h := hf
    unfold ProductRepository.findById at h
    exact h
  unfold ProductUseCase.updateProduct
  rw [hv, hf]
  dsimp only
  cases hfn : ProductRepository.findByName db ud.name with
  | none =>
    have hnomatch : ∀ q ∈ db.products,
        ¬ ProductRepository.nameParamMatches ud.name q.name = true := by
      have h := hfn
      unfold ProductRepository.findByName at h
      intro q hq
      simpa using List.find?_eq_none.mp h q hq
    simp only [hfn]
    rw [if_neg (by simp)]
    rw [hjs]
    dsimp only
    constructor
    · constructor
      · intro habs
        exact absurd habs (update_errors_are_sql _ id ud _ 400)
      · rintro ⟨q, hqmem, hqmatch, _⟩
        exact absurd hqmatch (hnomatch q hqmem)
    · intro hm
      exact absurd hm (hnomatch e hmem)
  | some pbn =>
    have hpbn : pbn ∈ db.products ∧
        ProductRepository.nameParamMatches ud.name pbn.name = true := by
      have h := hfn
      unfold ProductRepository.findByName at h
      exact ⟨List.mem_of_find?_eq_some h, by simpa using List.find?_some h⟩
    obtain ⟨hpbnmem, hpbnmatch⟩ := hpbn
    simp only [hfn]
    dsimp only
    by_cases hconf : (pbn.id != e.id) = true
    · rw [if_pos hconf]
      constructor
      · constructor
        · intro _
          exact ⟨pbn, hpbnmem, hpbnmatch, by simpa using hconf⟩
        · intro _
          rfl
      · intro hm
        exfalso
        have hpe : pbn = e := nameMatch_unique db hu ud.name pbn e hpbnmem hmem hpbnmatch hm
        rw [hpe] at hconf
        simp at hconf
    · rw [if_neg hconf]
      rw [hjs]
      dsimp only
      have hpeid : pbn.id = e.id := by simpa using hconf
      have hsucc : ∃ v, (ProductRepository.update
          (if stockNeNum e.stock n = true then
            InventoryLogRepository.createLog db id e.stock n cb
          else db) id ud).1 = .ok v := by
        have hprod : (if stockNeNum e.stock n = true then
            InventoryLogRepository.createLog db id e.stock n cb
          else db).products = db.products := by
          split_ifs <;> rfl
        refine update_ok_of _ id ud e nm sv ?_ htb ?_ hsb
        · rw [hprod]; exact hfind1
        · rw [hprod]
          rw [List.any_eq_false]
          intro q hq
          intro hcontra
          rw [Bool.and_eq_true] at hcontra
          obtain ⟨hqid, hqnm⟩ := hcontra
          have hqmatch : ProductRepository.nameParamMatches ud.name q.name = true := by
            unfold ProductRepository.nameParamMatches
            rw [htb]
            exact hqnm
          have hqpbn : q = pbn := nameMatch_unique db hu ud.name q pbn hq hpbnmem hqmatch hpbnmatch
          rw [hqpbn, hpeid, hid] at hqid
          simp at hqid
      constructor
      · constructor
        · intro habs
          exact absurd habs (update_errors_are_sql _ id ud _ 400)
        · rintro ⟨q, hqmem, hqmatch, hqid⟩
          exfalso
          have hqpbn : q = pbn := nameMatch_unique db hu ud.name q pbn hqmem hpbnmem hqmatch hpbnmatch
          exact hqid (by rw [hqpbn, hpeid])
      · intro _
        exact hsucc

/-- Store for the C5 witness/counterexample: one product `Sugar`. -/
def dbC5 : DB :=
  ⟨[⟨3, "Sugar", some "kg", some "food", some "acme", StockVal.int 4, some "active", none, 1, 1⟩],
    [], 4, 1, 12⟩

/-- The `Sugar` row of `dbC5`. -/
def prodC5 : Product :=
  ⟨3, "Sugar", some "kg", some "food", some "acme", StockVal.int 4, some "active", none, 1, 1⟩

/-- C5 witness payload: the product's own name in different letter case,
with a storable stock. -/
def rowC5 : RowData :=
  ⟨.str "SUGAR", .str "kg", .str "food", .str "acme", .str "active", .num 9, .undefined⟩

/-- Witness for the amended C5: renaming `Sugar` to `SUGAR` raises no
conflict and the update succeeds. -/
theorem updateProduct_name_conflict_iff_witness :
    (((ProductUseCase.updateProduct dbC5 3 rowC5 (.str "w")).1 =
        .error (.app ("Product name '" ++ jsDisplay rowC5.name ++ "' already exists.") 400)
      ↔ ∃ q ∈ dbC5.products,
          ProductRepository.nameParamMatches rowC5.name q.name = true ∧ q.id ≠ prodC5.id)
    ∧ (ProductRepository.nameParamMatches rowC5.name prodC5.name = true →
        ∃ v, (ProductUseCase.updateProduct dbC5 3 rowC5 (.str "w")).1 = .ok v)) :=
  updateProduct_name_conflict_iff dbC5 3 rowC5 (.str "w") prodC5
    (by decide) (by decide) (by decide) (by decide)

/-- C5 counterexample payload: the product's own name, but a `null` stock. -/
def rowC5n : RowData :=
  ⟨.str "SUGAR", .str "kg", .str "food", .str "acme", .str "active", .null, .undefined⟩

/-- Claim C5, counterexample to the claim as stated: an update keeping the
product's own name (different letter case) and passing validation
nevertheless fails — the raw `null` stock violates the store's NOT NULL
constraint — so "updating a product while keeping its own name succeeds"
does not hold unconditionally. -/
theorem updateProduct_own_name_update_fails :
    ProductRepository.nameParamMatches rowC5n.name prodC5.name = true
    ∧ ProductUseCase.validateProductData rowC5n = .ok ()
    ∧ (ProductUseCase.updateProduct dbC5 3 rowC5n (.str "w")).1 =
        .error (.sql "NOT NULL constraint failed: products.stock") := by
  refine ⟨by decide, by decide, by decide⟩
